import Mathlib

/-!
Verification of the quiz category/question data-access layer
(`categories.db.ts`, `questions.db.ts`) against its specification.

The relational store (Prisma over the schema in
`prisma/migrations/.../migration.sql`) is embedded as an explicit state:
lists of rows plus the SERIAL counters.  Both foreign keys are declared
`ON DELETE RESTRICT`, so every embedded delete checks for remaining
referencing rows and fails the way the database would.  Each data-access
function wraps its database calls in try/catch and re-throws any failure
as `new Error('Internal Server Error')`; the embedding returns
`Except String _` together with the state left behind (no rollback: the
source uses no transaction).  Where an operation can also fail for
infrastructure reasons (lost connection), a fault flag injects that
failure before the corresponding database call.
-/

namespace Quiz

/-- The fixed message of the generic error every catch-block throws:
`new Error('Internal Server Error')`. -/
def internalError : String := "Internal Server Error"

/-! ## Sanitizer -/

/-- Modelled from the spec: the Sanitizer (spec §4.3) is the third-party
`xss` library, whose source is not part of this repository.  Following the
spec's words, it strips/escapes the HTML-significant characters of free
text: angle brackets become their HTML entities, other characters pass
through. -/
def sanitizeChar (c : Char) : List Char :=
  if c = '<' then ['&', 'l', 't', ';']
  else if c = '>' then ['&', 'g', 't', ';']
  else [c]

/-- Sanitization over a character list: each character is expanded by
`sanitizeChar`. -/
def sanitizeList : List Char → List Char
  | [] => []
  | c :: cs => sanitizeChar c ++ sanitizeList cs

/-- `xss(text)` as applied to every free-text field on write and on read. -/
def sanitize (s : String) : String :=
  ⟨sanitizeList s.data⟩

/-! ## Data model (tables `Categories`, `Question`, `Option`) -/

/-- A row of the `Categories` table: `id SERIAL PK, title UNIQUE, slug UNIQUE`. -/
structure Category where
  id : Nat
  title : String
  slug : String
deriving Repr, DecidableEq

/-- A row of the `Question` table: `id SERIAL PK, text, categoryId FK → Categories`. -/
structure Question where
  id : Nat
  text : String
  categoryId : Nat
deriving Repr, DecidableEq

/-- A row of the `Option` table: `id SERIAL PK, text, isCorrect, questionId FK → Question`.
Named `QOption` because `Option` is taken in Lean. -/
structure QOption where
  id : Nat
  text : String
  isCorrect : Bool
  questionId : Nat
deriving Repr, DecidableEq

/-- The database state: the three tables plus their SERIAL counters. -/
structure Store where
  categories : List Category
  questions : List Question
  options : List QOption
  nextCategoryId : Nat
  nextQuestionId : Nat
  nextOptionId : Nat
deriving Repr, DecidableEq

/-- A freshly initialised database (SERIAL sequences start at 1). -/
def emptyStore : Store :=
  { categories := [], questions := [], options := [],
    nextCategoryId := 1, nextQuestionId := 1, nextOptionId := 1 }

/-! ## Category store (`categories.db.ts`) -/

/-- `sanitizedTitle.toLowerCase().replace(' ', '-')`: JavaScript
`String.replace` with a string pattern replaces only the FIRST occurrence,
so only the first space becomes a hyphen. -/
def replaceFirstSpace : List Char → List Char
  | [] => []
  | c :: cs => if c = ' ' then '-' :: cs else c :: replaceFirstSpace cs

/-- Slug derivation as written in `createCategory`/`updateCategory`:
lowercase, then replace the first space with a hyphen. -/
def slugify (t : String) : String :=
  ⟨replaceFirstSpace (t.data.map Char.toLower)⟩

/-- `getCategory(slug)`: `findUnique` by slug, `null` when absent, fields
sanitized on read. -/
def getCategory (slug : String) (s : Store) : Option Category :=
  (s.categories.find? (fun c => c.slug == slug)).map
    (fun c => { c with title := sanitize c.title, slug := sanitize c.slug })

/-- `createCategory({title})`: sanitize the title, derive the slug, insert.
The insert violates the `title`/`slug` unique indexes when a row with the
same title or slug exists; any failure (including an injected
infrastructure `fault`) is caught and re-thrown as the generic error. -/
def createCategory (fault : Bool) (title : String) (s : Store) :
    Except String Category × Store :=
  if fault then (.error internalError, s)
  else
    let st := sanitize title
    let sl := slugify st
    if s.categories.any (fun c => c.title == st || c.slug == sl) then
      (.error internalError, s)
    else
      let cat : Category := { id := s.nextCategoryId, title := st, slug := sl }
      (.ok cat,
       { s with categories := s.categories ++ [cat],
                nextCategoryId := s.nextCategoryId + 1 })

/-- `updateCategory(slug, {title})`: `prisma.categories.update` throws
(P2025) when no row has the slug — the catch re-throws the generic error,
so the function never returns `null` despite its declared type.  On
success the title is replaced and the slug re-derived; a unique-index
collision with another row also fails generically. -/
def updateCategory (slug : String) (title : String) (s : Store) :
    Except String (Option Category) × Store :=
  let st := sanitize title
  match s.categories.find? (fun c => c.slug == slug) with
  | none => (.error internalError, s)
  | some cat =>
    let sl := slugify st
    if s.categories.any (fun c => !(c.slug == slug) && (c.title == st || c.slug == sl)) then
      (.error internalError, s)
    else
      let cat2 : Category := { cat with title := st, slug := sl }
      (.ok (some cat2),
       { s with categories := s.categories.map (fun c => if c.slug == slug then cat2 else c) })

/-- `deleteCategory(slug)`: `findUnique`, then
`question.deleteMany({categoryId})`, then `categories.delete({slug})` —
three separate awaited calls, no transaction.  `fault k` injects an
infrastructure failure before the k-th call.  The `deleteMany` is one SQL
statement: it fails whole (FK `Option_questionId_fkey ON DELETE RESTRICT`)
when any matched question still has options, and the later
`categories.delete` would fail (FK `Question_categoryId_fkey RESTRICT`)
were questions still referencing the row.  Errors are caught and re-thrown
generically; whatever state earlier calls produced remains. -/
def deleteCategory (fault : Nat → Bool) (slug : String) (s : Store) :
    Except String (Option Category) × Store :=
  if fault 0 then (.error internalError, s)
  else
    match s.categories.find? (fun c => c.slug == slug) with
    | none => (.ok none, s)
    | some cat =>
      if fault 1 then (.error internalError, s)
      else if s.questions.any (fun q => q.categoryId == cat.id &&
              s.options.any (fun o => o.questionId == q.id)) then
        (.error internalError, s)
      else
        let s1 : Store :=
          { s with questions := s.questions.filter (fun q => !(q.categoryId == cat.id)) }
        if fault 2 then (.error internalError, s1)
        else
          match s1.categories.find? (fun c => c.slug == slug) with
          | none => (.error internalError, s1)
          | some cat2 =>
            if s1.questions.any (fun q => q.categoryId == cat2.id) then
              (.error internalError, s1)
            else
              (.ok (some cat2),
               { s1 with categories := s1.categories.filter (fun c => !(c.slug == slug)) })

/-! ## Question store (`questions.db.ts`) -/

/-- A question as returned with `include: { options: true }`. -/
structure FullQuestion where
  id : Nat
  text : String
  categoryId : Nat
  options : List QOption
deriving Repr, DecidableEq

/-- The options currently stored for a question. -/
def optionsOf (s : Store) (id : Nat) : List QOption :=
  s.options.filter (fun o => o.questionId == id)

/-- `getQuestionById(id)`: `findUnique` with options included, `null` when
absent, all text fields sanitized on read. -/
def getQuestionById (id : Nat) (s : Store) : Option FullQuestion :=
  (s.questions.find? (fun q => q.id == id)).map (fun q =>
    { id := q.id, text := sanitize q.text, categoryId := q.categoryId,
      options := (optionsOf s q.id).map (fun o => { o with text := sanitize o.text }) })

/-- One element of an update payload's `options` array
(`{id?, text, isCorrect}`; the `id` is accepted by the schema but unused). -/
structure UpdateOption where
  id : Option Nat
  text : String
  isCorrect : Bool
deriving Repr, DecidableEq

/-- The `updateQuestion` payload `{text?, categoryId?, options?}`. -/
structure QuestionToUpdate where
  text : Option String
  categoryId : Option Nat
  options : Option (List UpdateOption)
deriving Repr, DecidableEq

/-- The rows created by the nested `create:` for an options array:
sanitized text, sequential SERIAL ids from `startId`, owned by `qid`. -/
def mkOptions (startId qid : Nat) : List UpdateOption → List QOption
  | [] => []
  | o :: os =>
    { id := startId, text := sanitize o.text, isCorrect := o.isCorrect, questionId := qid } ::
      mkOptions (startId + 1) qid os

/-- `updateQuestion(id, data)`: `prisma.question.update` throws (P2025)
when the id is absent — caught, re-thrown generically.  Otherwise the
nested write runs: `text` only when provided and truthy
(`data.text ? xss(data.text) : undefined`, so the empty string is also
skipped); the options relation always executes `deleteMany: {}` — wiping
every option of the question — and then `create:` only when an options
array was provided.  The sanitized `categoryId` is computed but never
passed to `prisma.question.update`, so the stored `categoryId` is left
as it was.  Returns the updated row with its (new) options included. -/
def updateQuestion (id : Nat) (d : QuestionToUpdate) (s : Store) :
    Except String (Option FullQuestion) × Store :=
  match s.questions.find? (fun q => q.id == id) with
  | none => (.error internalError, s)
  | some q =>
    let newText :=
      match d.text with
      | some t => if t == "" then q.text else sanitize t
      | none => q.text
    let q2 : Question := { q with text := newText }
    let created :=
      match d.options with
      | none => []
      | some os => mkOptions s.nextOptionId id os
    let s2 : Store :=
      { s with
        questions := s.questions.map (fun r => if r.id == id then q2 else r),
        options := s.options.filter (fun o => !(o.questionId == id)) ++ created,
        nextOptionId := s.nextOptionId + created.length }
    (.ok (some { id := q2.id, text := q2.text, categoryId := q2.categoryId,
                 options := s2.options.filter (fun o => o.questionId == id) }), s2)

/-- `deleteQuestion(id)`: `option.deleteMany({questionId: id})` (always
succeeds — nothing references `Option` rows), then
`prisma.question.delete({id})`, which throws (P2025) when the id is absent
and would be blocked by the `Option` FK were options still present; any
failure is caught and re-thrown generically, with the `deleteMany` effect
kept (no transaction). -/
def deleteQuestion (id : Nat) (s : Store) : Except String Unit × Store :=
  let s1 : Store := { s with options := s.options.filter (fun o => !(o.questionId == id)) }
  match s1.questions.find? (fun q => q.id == id) with
  | none => (.error internalError, s1)
  | some q =>
    if s1.options.any (fun o => o.questionId == q.id) then
      (.error internalError, s1)
    else
      (.ok (), { s1 with questions := s1.questions.filter (fun r => !(r.id == id)) })

/-! ## Lemmas about the sanitizer -/

theorem sanitizeList_append (a b : List Char) :
    sanitizeList (a ++ b) = sanitizeList a ++ sanitizeList b := by
  induction a with
  | nil => rfl
  | cons c cs ih => simp [sanitizeList, ih, List.append_assoc]

theorem sanitizeList_sanitizeChar (c : Char) :
    sanitizeList (sanitizeChar c) = sanitizeChar c := by
  by_cases h1 : c = '<'
  · subst h1; rfl
  · by_cases h2 : c = '>'
    · subst h2; rfl
    · simp [sanitizeChar, sanitizeList, h1, h2]

theorem sanitizeList_idem (l : List Char) :
    sanitizeList (sanitizeList l) = sanitizeList l := by
  induction l with
  | nil => rfl
  | cons c cs ih =>
    simp [sanitizeList, sanitizeList_append, sanitizeList_sanitizeChar, ih]

/-! ## Lemmas about option replacement -/

theorem mkOptions_length (a qid : Nat) (os : List UpdateOption) :
    (mkOptions a qid os).length = os.length := by
  induction os generalizing a with
  | nil => rfl
  | cons o os ih => simp [mkOptions, ih]

theorem mkOptions_map_payload (a qid : Nat) (os : List UpdateOption) :
    (mkOptions a qid os).map (fun o => (o.text, o.isCorrect)) =
      os.map (fun o => (sanitize o.text, o.isCorrect)) := by
  induction os generalizing a with
  | nil => rfl
  | cons o os ih => simp [mkOptions, ih]

theorem mkOptions_questionId (a qid : Nat) (os : List UpdateOption) :
    ∀ x ∈ mkOptions a qid os, x.questionId = qid := by
  induction os generalizing a with
  | nil => intro x hx; simp [mkOptions] at hx
  | cons o os ih =>
    intro x hx
    simp only [mkOptions, List.mem_cons] at hx
    rcases hx with rfl | hx
    · rfl
    · exact ih (a + 1) x hx

theorem mkOptions_id_ge (a qid : Nat) (os : List UpdateOption) :
    ∀ x ∈ mkOptions a qid os, a ≤ x.id := by
  induction os generalizing a with
  | nil => intro x hx; simp [mkOptions] at hx
  | cons o os ih =>
    intro x hx
    simp only [mkOptions, List.mem_cons] at hx
    rcases hx with rfl | hx
    · exact Nat.le_refl a
    · exact Nat.le_of_succ_le (ih (a + 1) x hx)

theorem mkOptions_filter_self (a qid : Nat) (os : List UpdateOption) :
    (mkOptions a qid os).filter (fun o => o.questionId == qid) = mkOptions a qid os := by
  rw [List.filter_eq_self]
  intro x hx
  simp [mkOptions_questionId a qid os x hx]

theorem filter_not_beq_then_beq (l : List QOption) (id : Nat) :
    (l.filter (fun o => !(o.questionId == id))).filter (fun o => o.questionId == id) = [] := by
  induction l with
  | nil => rfl
  | cons o l ih =>
    by_cases h : o.questionId = id
    · simp [List.filter_cons, h, ih]
    · simp [List.filter_cons, h, ih]

theorem updateQuestion_store_options (s : Store) (id : Nat) (d : QuestionToUpdate)
    (q0 : Question) (hq0 : s.questions.find? (fun q => q.id == id) = some q0)
    (newSet : List UpdateOption) (hopts : d.options = some newSet) :
    (updateQuestion id d s).2.options =
      s.options.filter (fun o => !(o.questionId == id)) ++ mkOptions s.nextOptionId id newSet := by
  simp only [updateQuestion, hq0, hopts]

theorem updateQuestion_options_eq (s : Store) (id : Nat) (d : QuestionToUpdate)
    (newSet : List UpdateOption) (hopts : d.options = some newSet)
    (hq : ∃ q ∈ s.questions, q.id = id) :
    optionsOf (updateQuestion id d s).2 id = mkOptions s.nextOptionId id newSet := by
  obtain ⟨q, hqm, hqid⟩ := hq
  have hsome : (s.questions.find? (fun r => r.id == id)).isSome := by
    rw [List.find?_isSome]
    exact ⟨q, hqm, by simp [hqid]⟩
  obtain ⟨q0, hq0⟩ := Option.isSome_iff_exists.mp hsome
  rw [optionsOf, updateQuestion_store_options s id d q0 hq0 newSet hopts,
    List.filter_append, filter_not_beq_then_beq, List.nil_append, mkOptions_filter_self]

/-! ## Concrete stores used to exercise the operations -/

/-- A store with one category, one question and one option of that question. -/
def storeMathFull : Store :=
  { categories := [⟨1, "Math", "math"⟩], questions := [⟨1, "What is 2+2?", 1⟩],
    options := [⟨1, "4", true, 1⟩], nextCategoryId := 2, nextQuestionId := 2,
    nextOptionId := 2 }

/-- A store with one category and one question that has no options. -/
def storeMathNoOpts : Store :=
  { categories := [⟨1, "Math", "math"⟩], questions := [⟨1, "What is 2+2?", 1⟩],
    options := [], nextCategoryId := 2, nextQuestionId := 2, nextOptionId := 1 }

/-- A store with one question owning two options. -/
def storeTwoOpts : Store :=
  { categories := [⟨1, "Math", "math"⟩], questions := [⟨1, "What is 2+2?", 1⟩],
    options := [⟨1, "4", true, 1⟩, ⟨2, "3", false, 1⟩], nextCategoryId := 2,
    nextQuestionId := 2, nextOptionId := 3 }

/-- A store with two categories and one question in the first. -/
def storeTwoCats : Store :=
  { categories := [⟨1, "Math", "math"⟩, ⟨2, "History", "history"⟩],
    questions := [⟨1, "What is 2+2?", 1⟩], options := [],
    nextCategoryId := 3, nextQuestionId := 2, nextOptionId := 1 }

/-- A store holding just the category titled Math. -/
def storeMathOnly : Store :=
  { categories := [⟨1, "Math", "math"⟩], questions := [], options := [],
    nextCategoryId := 2, nextQuestionId := 1, nextOptionId := 1 }

/-! ## Claims -/

/-- C1: the claim says `deleteCategory(s)` removes the category, its
questions and their options, after which `getCategory` and
`getQuestionById` return absent.  On the code this fails: the cascade only
issues `question.deleteMany`, and the `Option → Question` foreign key is
`ON DELETE RESTRICT`, so as soon as any question of the category still has
an option the delete statement is rejected, the catch re-throws the
generic error, and nothing at all is removed — the category and the
question are still found afterwards. -/
theorem C1_deleteCategory_cascade_blocked_by_options :
    deleteCategory (fun _ => false) "math" storeMathFull =
      (.error internalError, storeMathFull) ∧
    getCategory "math" (deleteCategory (fun _ => false) "math" storeMathFull).2 ≠ none ∧
    getQuestionById 1 (deleteCategory (fun _ => false) "math" storeMathFull).2 ≠ none :=
  ⟨rfl, by decide, by decide⟩

/-- C2: the claim says an update payload without `options` leaves the
question's options untouched.  On the code this fails: the nested write
always contains `deleteMany: {}`, so updating only the text deletes every
option of the question and creates none. -/
theorem C2_update_without_options_wipes_options :
    (⟨some "Updated question text", none, none⟩ : QuestionToUpdate).options = none ∧
    optionsOf storeTwoOpts 1 ≠ [] ∧
    optionsOf (updateQuestion 1 ⟨some "Updated question text", none, none⟩ storeTwoOpts).2 1
      = [] :=
  ⟨rfl, by decide, rfl⟩

/-- C3: the claim says every space of the lowercased title becomes a
hyphen.  The single-space example works ("Computer Science" →
"computer-science"), but `.replace(' ', '-')` with a string pattern
replaces only the first occurrence, so a title with two spaces keeps its
second space in the slug. -/
theorem C3_slug_replaces_only_first_space :
    (createCategory false "Computer Science" emptyStore).1 =
      .ok { id := 1, title := "Computer Science", slug := "computer-science" } ∧
    (createCategory false "Computer Science Two" emptyStore).1 =
      .ok { id := 1, title := "Computer Science Two", slug := "computer-science two" } ∧
    "computer-science two" ≠ "computer-science-two" :=
  ⟨rfl, rfl, by decide⟩

/-- C4: the claim (and the function's own doc comment) says
`updateCategory` returns absent on an unknown slug without throwing.  On
the code, `prisma.categories.update` throws P2025 when no row matches and
the catch re-throws the generic error; the store is left unchanged. -/
theorem C4_updateCategory_missing_slug_throws (s : Store) (slug title : String)
    (h : ∀ c ∈ s.categories, c.slug ≠ slug) :
    updateCategory slug title s = (.error internalError, s) := by
  have hf : s.categories.find? (fun c => c.slug == slug) = none := by
    rw [List.find?_eq_none]
    intro c hc
    simpa using h c hc
  simp [updateCategory, hf]

theorem C4_witness :
    (∀ c ∈ emptyStore.categories, c.slug ≠ "nope") ∧
    updateCategory "nope" "Valid title" emptyStore = (.error internalError, emptyStore) := by
  refine ⟨?_, C4_updateCategory_missing_slug_throws emptyStore "nope" "Valid title" ?_⟩ <;>
    simp [emptyStore]

/-- C5: the claim says `deleteCategory` is atomic.  The code runs the
question `deleteMany` and the category delete as two separate calls with
no transaction, so an infrastructure failure at the category-delete step
leaves the partial state the claim rules out: questions gone, category
still present. -/
theorem C5_deleteCategory_partial_state_on_late_failure :
    (deleteCategory (fun n => n == 2) "math" storeMathNoOpts).1 = .error internalError ∧
    (deleteCategory (fun n => n == 2) "math" storeMathNoOpts).2.questions = [] ∧
    (deleteCategory (fun n => n == 2) "math" storeMathNoOpts).2.categories =
      storeMathNoOpts.categories ∧
    storeMathNoOpts.questions ≠ [] :=
  ⟨rfl, rfl, rfl, by decide⟩

/-- C6: updating a question with an options list `newSet` is a full
replace: afterwards the question has exactly `newSet.length` options, each
the sanitized image of a `newSet` entry, and none of the previous option
rows survive (their ids are below the SERIAL counter, the new rows' ids at
or above it). -/
theorem C6_updateQuestion_full_replace (s : Store) (id : Nat) (d : QuestionToUpdate)
    (newSet : List UpdateOption)
    (hopts : d.options = some newSet)
    (hq : ∃ q ∈ s.questions, q.id = id)
    (hb : ∀ o ∈ s.options, o.id < s.nextOptionId) :
    (optionsOf (updateQuestion id d s).2 id).length = newSet.length ∧
    (optionsOf (updateQuestion id d s).2 id).map (fun o => (o.text, o.isCorrect)) =
      newSet.map (fun o => (sanitize o.text, o.isCorrect)) ∧
    ∀ o ∈ optionsOf s id, o ∉ optionsOf (updateQuestion id d s).2 id := by
  have key := updateQuestion_options_eq s id d newSet hopts hq
  refine ⟨?_, ?_, ?_⟩
  · rw [key, mkOptions_length]
  · rw [key, mkOptions_map_payload]
  · intro o ho hmem
    rw [key] at hmem
    simp only [optionsOf] at ho
    have h1 : o.id < s.nextOptionId := hb o (List.mem_of_mem_filter ho)
    have h2 : s.nextOptionId ≤ o.id := mkOptions_id_ge _ _ _ o hmem
    exact absurd h1 (Nat.not_lt.mpr h2)

/-- The payload used to witness C6: replace the options with two new ones. -/
def payloadC6 : QuestionToUpdate :=
  { text := none, categoryId := none,
    options := some [⟨none, "3", false⟩, ⟨none, "4", true⟩] }

theorem C6_witness :
    payloadC6.options = some [⟨none, "3", false⟩, ⟨none, "4", true⟩] ∧
    (∃ q ∈ storeTwoOpts.questions, q.id = 1) ∧
    (∀ o ∈ storeTwoOpts.options, o.id < storeTwoOpts.nextOptionId) ∧
    ((optionsOf (updateQuestion 1 payloadC6 storeTwoOpts).2 1).length =
        ([⟨none, "3", false⟩, ⟨none, "4", true⟩] : List UpdateOption).length ∧
      (optionsOf (updateQuestion 1 payloadC6 storeTwoOpts).2 1).map
          (fun o => (o.text, o.isCorrect)) =
        ([⟨none, "3", false⟩, ⟨none, "4", true⟩] : List UpdateOption).map
          (fun o => (sanitize o.text, o.isCorrect)) ∧
      ∀ o ∈ optionsOf storeTwoOpts 1,
        o ∉ optionsOf (updateQuestion 1 payloadC6 storeTwoOpts).2 1) := by
  have h1 : payloadC6.options = some [⟨none, "3", false⟩, ⟨none, "4", true⟩] := rfl
  have h2 : ∃ q ∈ storeTwoOpts.questions, q.id = 1 :=
    ⟨⟨1, "What is 2+2?", 1⟩, by simp [storeTwoOpts], rfl⟩
  have h3 : ∀ o ∈ storeTwoOpts.options, o.id < storeTwoOpts.nextOptionId := by
    intro o ho
    simp only [storeTwoOpts, List.mem_cons, List.not_mem_nil, or_false] at ho
    rcases ho with rfl | rfl <;> decide
  exact ⟨h1, h2, h3, C6_updateQuestion_full_replace storeTwoOpts 1 payloadC6 _ h1 h2 h3⟩

/-- C7: the claim says a supplied `categoryId` referencing an existing
category is stored.  On the code this fails: `categoryId` is sanitized
into `sanitizedData` but never passed to `prisma.question.update`, so the
stored value stays what it was (here 1, though category 2 exists and the
payload asked for it). -/
theorem C7_updateQuestion_ignores_categoryId :
    (∃ c ∈ storeTwoCats.categories, c.id = 2) ∧
    (updateQuestion 1 ⟨none, some 2, none⟩ storeTwoCats).2.questions =
      [⟨1, "What is 2+2?", 1⟩] ∧
    (updateQuestion 1 ⟨none, some 2, none⟩ storeTwoCats).1 =
      .ok (some ⟨1, "What is 2+2?", 1, []⟩) :=
  ⟨⟨⟨2, "History", "history"⟩, by simp [storeTwoCats], rfl⟩, rfl, rfl⟩

/-- C8 counterexample: the error thrown on a duplicate title is the same
generic `Internal Server Error` thrown for any other failure (here an
injected infrastructure failure on a fresh store), so the failure is not
distinguishable as a conflict. -/
theorem C8_conflict_error_not_distinguishable :
    (createCategory false "Math" storeMathOnly).1 = .error internalError ∧
    (createCategory true "History" emptyStore).1 = .error internalError ∧
    (createCategory false "Math" storeMathOnly).1 =
      (createCategory true "History" emptyStore).1 :=
  ⟨rfl, rfl, rfl⟩

/-- C8 amended: creating a category whose (sanitized) title already exists
fails — with the generic internal error, not a conflict-specific one — and
the store is unchanged: no silent overwrite, the first category intact. -/
theorem C8_duplicate_title_fails_without_overwrite (s : Store) (t : String)
    (h : ∃ c ∈ s.categories, c.title = sanitize t) :
    createCategory false t s = (.error internalError, s) := by
  obtain ⟨c, hc, ht⟩ := h
  have ha : s.categories.any
      (fun c => c.title == sanitize t || c.slug == slugify (sanitize t)) = true := by
    rw [List.any_eq_true]
    exact ⟨c, hc, by simp [ht]⟩
  simp [createCategory, ha]

theorem C8_witness :
    (∃ c ∈ storeMathOnly.categories, c.title = sanitize "Math") ∧
    createCategory false "Math" storeMathOnly = (.error internalError, storeMathOnly) := by
  have h : ∃ c ∈ storeMathOnly.categories, c.title = sanitize "Math" :=
    ⟨⟨1, "Math", "math"⟩, by simp [storeMathOnly], by decide⟩
  exact ⟨h, C8_duplicate_title_fails_without_overwrite storeMathOnly "Math" h⟩

/-- C9: the sanitizer is idempotent — sanitizing twice equals sanitizing
once, for every string. -/
theorem C9_sanitize_idempotent (x : String) : sanitize (sanitize x) = sanitize x :=
  congrArg (fun l => (⟨l⟩ : String)) (sanitizeList_idem x.data)

/-- C10: deleting a nonexistent question id throws the generic error
rather than silently succeeding, and — the option `deleteMany` matching
nothing under referential integrity — removes no question and no option of
any other question: the store is exactly as before. -/
theorem C10_deleteQuestion_missing_id_throws (s : Store) (id : Nat)
    (hq : ∀ q ∈ s.questions, q.id ≠ id)
    (hfk : ∀ o ∈ s.options, ∃ q ∈ s.questions, q.id = o.questionId) :
    deleteQuestion id s = (.error internalError, s) := by
  have hopt : s.options.filter (fun o => !(o.questionId == id)) = s.options := by
    rw [List.filter_eq_self]
    intro o ho
    obtain ⟨q, hqm, hqid⟩ := hfk o ho
    have hne : o.questionId ≠ id := hqid ▸ hq q hqm
    simp [hne]
  have hf : s.questions.find? (fun q => q.id == id) = none := by
    rw [List.find?_eq_none]
    intro q hqm
    simpa using hq q hqm
  simp [deleteQuestion, hopt, hf]

theorem C10_witness :
    (∀ q ∈ storeMathFull.questions, q.id ≠ 99) ∧
    (∀ o ∈ storeMathFull.options, ∃ q ∈ storeMathFull.questions, q.id = o.questionId) ∧
    deleteQuestion 99 storeMathFull = (.error internalError, storeMathFull) := by
  have h1 : ∀ q ∈ storeMathFull.questions, q.id ≠ 99 := by
    intro q hq
    simp only [storeMathFull, List.mem_singleton] at hq
    subst hq
    decide
  have h2 : ∀ o ∈ storeMathFull.options, ∃ q ∈ storeMathFull.questions,
      q.id = o.questionId := by
    intro o ho
    simp only [storeMathFull, List.mem_singleton] at ho
    subst ho
    exact ⟨⟨1, "What is 2+2?", 1⟩, by simp [storeMathFull], rfl⟩
  exact ⟨h1, h2, C10_deleteQuestion_missing_id_throws storeMathFull 99 h1 h2⟩

end Quiz
